import Mathlib

set_option maxRecDepth 10000

/-!
# Verification of the order validation and placement pipeline

Shallow embedding of the trading bot's core (`bot/validators.py`,
`bot/client.py`, `bot/orders.py`).  Python strings are modelled as
`List Char`; Python `float` values are modelled exactly, as a rational
together with the IEEE special values `inf`, `-inf` and `nan`
(`PyFloat`); numeric string parsing follows CPython's `float()`
grammar (optional surrounding whitespace, optional sign, the words
`inf`/`infinity`/`nan` case-insensitively, or a decimal mantissa with
optional fraction, underscores between digits, and optional exponent),
with the finite magnitudes kept as exact rationals.  Failures raised as
Python exceptions are modelled with `Except`.
-/

namespace Bot

/-- Decidable equality for `Except`, used to evaluate the embedded
functions on concrete inputs. -/
instance {ε α : Type} [DecidableEq ε] [DecidableEq α] :
    DecidableEq (Except ε α) := fun x y =>
  match x, y with
  | .error a, .error b =>
    if h : a = b then .isTrue (by rw [h]) else .isFalse (by simp [h])
  | .error _, .ok _ => .isFalse (by simp)
  | .ok _, .error _ => .isFalse (by simp)
  | .ok a, .ok b =>
    if h : a = b then .isTrue (by rw [h]) else .isFalse (by simp [h])

/-- Python strings are modelled as lists of characters. -/
abbrev PyStr := List Char

/-- The whitespace characters recognised by `str.strip()` and by
`float()` on ASCII input: space, tab, newline, carriage return,
vertical tab, form feed. -/
def isPySpace (c : Char) : Bool :=
  c.toNat == 32 || (9 ≤ c.toNat && c.toNat ≤ 13)

/-- `str.upper()` on ASCII input: map each character to upper case. -/
def pyUpper (s : PyStr) : PyStr := s.map Char.toUpper

/-- `str.lower()` on ASCII input: map each character to lower case. -/
def pyLower (s : PyStr) : PyStr := s.map Char.toLower

/-- `str.strip()`: drop whitespace from both ends. -/
def pyStrip (s : PyStr) : PyStr :=
  ((s.dropWhile isPySpace).reverse.dropWhile isPySpace).reverse

/-- `str.endswith(suffix)`. -/
def pyEndsWith (s suffix : PyStr) : Bool := suffix.isSuffixOf s

/-! ## Python float values and `float()` parsing -/

/-- A Python `float` as far as the validators observe it: an exact
finite magnitude, positive or negative infinity, or NaN. -/
inductive PyFloat where
  | finite (q : ℚ)
  | inf
  | negInf
  | nan
deriving DecidableEq, Repr

/-- The comparison `x <= 0` on a Python float (IEEE semantics: every
comparison with NaN is false). -/
def PyFloat.leZero : PyFloat → Bool
  | .finite q => decide (q ≤ 0)
  | .inf => false
  | .negInf => true
  | .nan => false

/-- The comparison `x > 0` on a Python float (IEEE semantics: every
comparison with NaN is false). -/
def PyFloat.posCmp : PyFloat → Bool
  | .finite q => decide (0 < q)
  | .inf => true
  | .negInf => false
  | .nan => false

/-- Whether a Python float is finite. -/
def PyFloat.isFinite : PyFloat → Bool
  | .finite _ => true
  | _ => false

/-- CPython's underscore rule for numeric strings: an underscore is
legal only when directly preceded and followed by a decimal digit.
Returns the string with the underscores removed, or `none` when the
rule is violated.  `prev` is the character just before the remaining
input (`none` at the very start). -/
def stripUnderscoresAux : Option Char → List Char → Option (List Char)
  | _, [] => some []
  | prev, c :: rest =>
    if c == '_' then
      match prev, rest with
      | some p, d :: _ =>
        if p.isDigit && d.isDigit then stripUnderscoresAux (some c) rest
        else none
      | _, _ => none
    else
      match stripUnderscoresAux (some c) rest with
      | some r => some (c :: r)
      | none => none

/-- Remove legal digit-group underscores from a numeric string. -/
def stripUnderscores (s : List Char) : Option (List Char) :=
  stripUnderscoresAux none s

/-- Consume a run of decimal digits, accumulating their value.
Returns the accumulated value, the number of digits consumed, and the
remaining input. -/
def parseUDigits : List Char → Nat → Nat → Nat × Nat × List Char
  | [], v, n => (v, n, [])
  | c :: rest, v, n =>
    if c.isDigit then parseUDigits rest (v * 10 + (c.toNat - 48)) (n + 1)
    else (v, n, c :: rest)

/-- Optional exponent part `e[±]digits` of a float literal (input is
already lower-cased); yields the signed exponent value, `0` when the
input is empty. -/
def parseExpPart : List Char → Option Int
  | [] => some 0
  | 'e' :: r2 =>
    let sgnRest : Bool × List Char :=
      match r2 with
      | '+' :: rr => (false, rr)
      | '-' :: rr => (true, rr)
      | _ => (false, r2)
    let (ev, ec, r4) := parseUDigits sgnRest.2 0 0
    if ec = 0 then none
    else if r4.isEmpty then
      some (if sgnRest.1 then -(ev : Int) else (ev : Int))
    else none
  | _ => none

/-- Mantissa and base-10 exponent of a float literal:
`digits [. digits] [exp]` or `. digits [exp]`, at least one digit in
total.  Input is lower-cased and underscore-free.  The value denoted
is `mantissa * 10 ^ exponent`. -/
def parseFloatBody (s : List Char) : Option (Nat × Int) :=
  let (ip, ic, r1) := parseUDigits s 0 0
  match r1 with
  | '.' :: r2 =>
    let (fp, fc, r3) := parseUDigits r2 0 0
    if ic + fc = 0 then none
    else
      match parseExpPart r3 with
      | none => none
      | some e => some (ip * 10 ^ fc + fp, e - (fc : Int))
  | r1 =>
    if ic = 0 then none
    else
      match parseExpPart r1 with
      | none => none
      | some e => some (ip, e)

/-- The exact rational `±(m * 10 ^ e)` denoted by a parsed decimal
literal. -/
def decToRat (neg : Bool) (m : Nat) (e : Int) : ℚ :=
  let n : Int := if neg then -(m : Int) else (m : Int)
  if 0 ≤ e then Rat.divInt (n * (10 : Int) ^ e.toNat) 1
  else Rat.divInt n ((10 : Int) ^ (-e).toNat)

/-- CPython `float(s)` on a string: strip surrounding whitespace, read
an optional sign, accept `inf`/`infinity`/`nan` case-insensitively,
otherwise parse a decimal literal (underscores allowed between
digits).  `none` models `ValueError`.  Finite magnitudes are kept
exact. -/
def pyParseFloat (s : PyStr) : Option PyFloat :=
  let t := pyStrip s
  let signBody : Bool × List Char :=
    match t with
    | '+' :: r => (false, r)
    | '-' :: r => (true, r)
    | _ => (false, t)
  let neg := signBody.1
  let low := pyLower signBody.2
  if low = "inf".data ∨ low = "infinity".data then
    some (if neg then .negInf else .inf)
  else if low = "nan".data then some .nan
  else
    match stripUnderscores low with
    | none => none
    | some t2 =>
      match parseFloatBody t2 with
      | none => none
      | some me => some (.finite (decToRat neg me.1 me.2))

/-! ## bot/validators.py -/

/-- `validate_symbol` (bot/validators.py): reject the empty string,
upper-case and strip, require the `USDT` suffix and length at least 5.
The `Except.error` message models the `ValidationError` raised. -/
def validate_symbol (symbol : PyStr) : Except String PyStr :=
  if symbol.isEmpty then .error "Symbol cannot be empty"
  else
    let s := pyStrip (pyUpper symbol)
    if ¬ pyEndsWith s "USDT".data then
      .error "Symbol must end with 'USDT' for USDT-M futures"
    else if s.length < 5 then .error "Symbol is too short"
    else .ok s

/-- `validate_side` (bot/validators.py): upper-case and strip, require
`BUY` or `SELL`. -/
def validate_side (side : PyStr) : Except String PyStr :=
  let s := pyStrip (pyUpper side)
  if ¬ (s = "BUY".data ∨ s = "SELL".data) then
    .error "Side must be 'BUY' or 'SELL'"
  else .ok s

/-- `validate_order_type` (bot/validators.py): upper-case and strip,
require `MARKET` or `LIMIT`. -/
def validate_order_type (order_type : PyStr) : Except String PyStr :=
  let s := pyStrip (pyUpper order_type)
  if ¬ (s = "MARKET".data ∨ s = "LIMIT".data) then
    .error "Order type must be 'MARKET' or 'LIMIT'"
  else .ok s

/-- `validate_quantity` (bot/validators.py): `float(quantity)`, then
reject when `qty <= 0`. -/
def validate_quantity (quantity : PyStr) : Except String PyFloat :=
  match pyParseFloat quantity with
  | none => .error "Quantity must be a valid number"
  | some qty =>
    if qty.leZero then .error "Quantity must be greater than 0"
    else .ok qty

/-- `validate_price` (bot/validators.py): `None` or the empty string
yield `None`; otherwise `float(price)`, rejected when `p <= 0`. -/
def validate_price (price : Option PyStr) : Except String (Option PyFloat) :=
  match price with
  | none => .ok none
  | some p =>
    if p.isEmpty then .ok none
    else
      match pyParseFloat p with
      | none => .error "Price must be a valid number"
      | some v =>
        if v.leZero then .error "Price must be greater than 0"
        else .ok (some v)

/-- The dictionary returned by `validate_order_params`; `price = none`
models the absence of the `price` key. -/
structure ValidatedParams where
  symbol : PyStr
  side : PyStr
  type : PyStr
  quantity : PyFloat
  price : Option PyFloat
deriving DecidableEq, Repr

/-- `validate_order_params` (bot/validators.py): validate symbol, side,
type and quantity in that order (Python evaluates the dict literal's
values in source order, and the first `ValidationError` raised
propagates); then the cross-field price rule: a LIMIT order requires a
non-empty price, which is then validated; any other (MARKET) order
rejects a provided non-empty price. -/
def validate_order_params (symbol side order_type quantity : PyStr)
    (price : Option PyStr) : Except String ValidatedParams := do
  let s ← validate_symbol symbol
  let sd ← validate_side side
  let t ← validate_order_type order_type
  let q ← validate_quantity quantity
  if t = "LIMIT".data then
    if price = none ∨ price = some [] then
      throw "Price is required for LIMIT orders"
    else do
      let vp ← validate_price price
      pure { symbol := s, side := sd, type := t, quantity := q, price := vp }
  else
    if price ≠ none ∧ price ≠ some [] then
      throw "Price should not be specified for MARKET orders"
    else
      pure { symbol := s, side := sd, type := t, quantity := q, price := none }

/-! ## bot/client.py -/

/-- A Python dict with string keys and string values, as the
orchestrator observes exchange data: an association list in insertion
order.  Python's truthiness of a dict is nonemptiness. -/
abbrev PyDict := List (PyStr × PyStr)

/-- `d.get(k)`: the first binding of `k`, or `None`. -/
def dictGet (d : PyDict) (k : PyStr) : Option PyStr :=
  match d with
  | [] => none
  | (k', v) :: rest => if k' = k then some v else dictGet rest k

/-- `d.get(k, default)`. -/
def dictGetD (d : PyDict) (k : PyStr) (dflt : PyStr) : PyStr :=
  (dictGet d k).getD dflt

/-- An HTTP response as `test_connection` observes it. -/
structure HttpResponse where
  status_code : Nat
  text : PyStr
deriving DecidableEq, Repr

/-- `BinanceTestnetClient.test_connection` (bot/client.py): the whole
body runs under `try/except Exception`, so the outcome of the
authenticated GET is an explicit input — `.error` models a raised
exception (transport failure), `.ok` a received response.  The method
returns `True` exactly on HTTP 200 and `False` otherwise, including on
any exception. -/
def test_connection (outcome : Except String HttpResponse) : Bool :=
  match outcome with
  | .ok response => response.status_code == 200
  | .error _ => false

/-! ## Request signing (bot/client.py `_generate_signature`)

Bytes are modelled as `Nat` values below 256; 32-bit words as `Nat`
values reduced modulo `2 ^ 32` where overflow matters. -/

/-- UTF-8 encoding of one character. -/
def utf8Char (c : Char) : List Nat :=
  let n := c.toNat
  if n < 0x80 then [n]
  else if n < 0x800 then
    [0xC0 ||| (n >>> 6), 0x80 ||| (n &&& 0x3F)]
  else if n < 0x10000 then
    [0xE0 ||| (n >>> 12), 0x80 ||| ((n >>> 6) &&& 0x3F),
     0x80 ||| (n &&& 0x3F)]
  else
    [0xF0 ||| (n >>> 18), 0x80 ||| ((n >>> 12) &&& 0x3F),
     0x80 ||| ((n >>> 6) &&& 0x3F), 0x80 ||| (n &&& 0x3F)]

/-- `str.encode('utf-8')`. -/
def utf8Encode (s : PyStr) : List Nat := (s.map utf8Char).flatten

/-- The bytes `urllib.parse.quote_plus` leaves unencoded: ASCII
letters, digits, `_`, `.`, `-`, `~`. -/
def isUrlSafe (b : Nat) : Bool :=
  (65 ≤ b && b ≤ 90) || (97 ≤ b && b ≤ 122) || (48 ≤ b && b ≤ 57) ||
  b == 95 || b == 46 || b == 45 || b == 126

/-- Upper-case hexadecimal digit, for percent-encoding. -/
def hexDigitUpper (n : Nat) : Char :=
  if n < 10 then Char.ofNat (48 + n) else Char.ofNat (55 + n)

/-- `urllib.parse.quote_plus`: UTF-8 encode, keep safe bytes, encode
space as `+`, percent-encode every other byte in upper-case hex. -/
def quotePlus (s : PyStr) : PyStr :=
  ((utf8Encode s).map fun b =>
    if b == 32 then ['+']
    else if isUrlSafe b then [Char.ofNat b]
    else ['%', hexDigitUpper (b / 16), hexDigitUpper (b % 16)]).flatten

/-- `urllib.parse.urlencode` on an ordered mapping whose keys and
values are strings (the source calls it on a dict, which iterates in
insertion order; non-string values are rendered by `str()` before the
call is modelled): `k=v` pairs joined by `&`. -/
def urlencode (params : List (PyStr × PyStr)) : PyStr :=
  (List.intersperse "&".data
    (params.map fun kv => quotePlus kv.1 ++ "=".data ++ quotePlus kv.2)).flatten

/-- Reduction modulo `2 ^ 32`. -/
def m32 (n : Nat) : Nat := n &&& 0xFFFFFFFF

/-- 32-bit right rotation. -/
def rotr32 (x k : Nat) : Nat := m32 ((x >>> k) ||| (x <<< (32 - k)))

/-- The SHA-256 round constants. -/
def sha256K : List Nat :=
  [1116352408, 1899447441, 3049323471, 3921009573, 961987163,
   1508970993, 2453635748, 2870763221, 3624381080, 310598401,
   607225278, 1426881987, 1925078388, 2162078206, 2614888103,
   3248222580, 3835390401, 4022224774, 264347078, 604807628,
   770255983, 1249150122, 1555081692, 1996064986, 2554220882,
   2821834349, 2952996808, 3210313671, 3336571891, 3584528711,
   113926993, 338241895, 666307205, 773529912, 1294757372,
   1396182291, 1695183700, 1986661051, 2177026350, 2456956037,
   2730485921, 2820302411, 3259730800, 3345764771, 3516065817,
   3600352804, 4094571909, 275423344, 430227734, 506948616,
   659060556, 883997877, 958139571, 1322822218, 1537002063,
   1747873779, 1955562222, 2024104815, 2227730452, 2361852424,
   2428436474, 2756734187, 3204031479, 3329325298]

/-- The SHA-256 initial hash value. -/
def sha256H0 : List Nat :=
  [1779033703, 3144134277, 1013904242, 2773480762, 1359893119,
   2600822924, 528734635, 1541459225]

/-- Big-endian byte rendering of `n` on `count` bytes. -/
def beBytes (count n : Nat) : List Nat :=
  (List.range count).map fun i => (n >>> (8 * (count - 1 - i))) &&& 0xFF

/-- SHA-256 message padding: `0x80`, zeros to 56 mod 64, then the
bit length on 8 big-endian bytes. -/
def sha256Pad (msg : List Nat) : List Nat :=
  let z := (119 - msg.length % 64) % 64
  msg ++ [0x80] ++ List.replicate z 0 ++ beBytes 8 (8 * msg.length)

/-- Pack bytes into 32-bit big-endian words. -/
def toWords : List Nat → List Nat
  | b0 :: b1 :: b2 :: b3 :: rest =>
    ((((b0 <<< 8) ||| b1) <<< 8 ||| b2) <<< 8 ||| b3) :: toWords rest
  | _ => []

/-- `w.getD i 0`, the i-th scheduled word. -/
def nthW (w : List Nat) (i : Nat) : Nat := w.getD i 0

/-- Extend the 16 block words to the 64-word message schedule. -/
def sha256Extend (w16 : List Nat) : List Nat :=
  (List.range 48).foldl (fun w _ =>
    let i := w.length
    let s0 := rotr32 (nthW w (i - 15)) 7 ^^^ rotr32 (nthW w (i - 15)) 18 ^^^
      (nthW w (i - 15) >>> 3)
    let s1 := rotr32 (nthW w (i - 2)) 17 ^^^ rotr32 (nthW w (i - 2)) 19 ^^^
      (nthW w (i - 2) >>> 10)
    w ++ [m32 (nthW w (i - 16) + s0 + nthW w (i - 7) + s1)]) w16

/-- The eight SHA-256 working registers. -/
structure Sha256State where
  a : Nat
  b : Nat
  c : Nat
  d : Nat
  e : Nat
  f : Nat
  g : Nat
  h : Nat
deriving DecidableEq, Repr

/-- One SHA-256 round. -/
def sha256Round (st : Sha256State) (ki wi : Nat) : Sha256State :=
  let S1 := rotr32 st.e 6 ^^^ rotr32 st.e 11 ^^^ rotr32 st.e 25
  let ch := (st.e &&& st.f) ^^^ ((0xFFFFFFFF ^^^ st.e) &&& st.g)
  let t1 := m32 (st.h + S1 + ch + ki + wi)
  let S0 := rotr32 st.a 2 ^^^ rotr32 st.a 13 ^^^ rotr32 st.a 22
  let maj := (st.a &&& st.b) ^^^ (st.a &&& st.c) ^^^ (st.b &&& st.c)
  let t2 := m32 (S0 + maj)
  ⟨m32 (t1 + t2), st.a, st.b, st.c, m32 (st.d + t1), st.e, st.f, st.g⟩

/-- Compress one 64-byte block into the running hash value. -/
def sha256Compress (hv : List Nat) (block : List Nat) : List Nat :=
  let w := sha256Extend (toWords block)
  let init : Sha256State :=
    ⟨nthW hv 0, nthW hv 1, nthW hv 2, nthW hv 3,
     nthW hv 4, nthW hv 5, nthW hv 6, nthW hv 7⟩
  let st := (List.zip sha256K w).foldl
    (fun st kw => sha256Round st kw.1 kw.2) init
  [m32 (nthW hv 0 + st.a), m32 (nthW hv 1 + st.b),
   m32 (nthW hv 2 + st.c), m32 (nthW hv 3 + st.d),
   m32 (nthW hv 4 + st.e), m32 (nthW hv 5 + st.f),
   m32 (nthW hv 6 + st.g), m32 (nthW hv 7 + st.h)]

/-- Fold the compression function over `n` consecutive 64-byte
blocks. -/
def sha256Blocks : Nat → List Nat → List Nat → List Nat
  | 0, hv, _ => hv
  | n + 1, hv, bytes =>
    sha256Blocks n (sha256Compress hv (bytes.take 64)) (bytes.drop 64)

/-- SHA-256 of a byte string. -/
def sha256 (msg : List Nat) : List Nat :=
  let padded := sha256Pad msg
  let hv := sha256Blocks (padded.length / 64) sha256H0 padded
  (hv.map (beBytes 4)).flatten

/-- HMAC-SHA-256 (`hmac.new(key, msg, hashlib.sha256)`). -/
def hmacSha256 (key msg : List Nat) : List Nat :=
  let k0 := if 64 < key.length then sha256 key else key
  let k := k0 ++ List.replicate (64 - k0.length) 0
  sha256 ((k.map fun b => b ^^^ 0x5C) ++
    sha256 ((k.map fun b => b ^^^ 0x36) ++ msg))

/-- Lower-case hexadecimal digit. -/
def hexDigitLower (n : Nat) : Char :=
  if n < 10 then Char.ofNat (48 + n) else Char.ofNat (87 + n)

/-- `.hexdigest()`: lower-case hex rendering of a byte string. -/
def hexDigest (bytes : List Nat) : PyStr :=
  (bytes.map fun b => [hexDigitLower (b / 16), hexDigitLower (b % 16)]).flatten

/-- `BinanceTestnetClient._generate_signature` (bot/client.py):
URL-encode the parameters in insertion order into a query string, then
HMAC-SHA-256 keyed by the UTF-8 bytes of the API secret over the UTF-8
bytes of that query string, returned as a lower-case hex digest. -/
def generate_signature (api_secret : PyStr)
    (params : List (PyStr × PyStr)) : PyStr :=
  let query_string := urlencode params
  hexDigest (hmacSha256 (utf8Encode api_secret) (utf8Encode query_string))

/-- Modelled from the spec (§4.2 Request Signer), for comparison with
the source's `generate_signature`: encode `params` as a URL query
string in insertion order, compute HMAC using SHA-256 keyed by
`secret` over the UTF-8 bytes of that query string, output the
lower-case hex digest. -/
def signSpec (secret : PyStr) (params : List (PyStr × PyStr)) : PyStr :=
  hexDigest (hmacSha256 (utf8Encode secret)
    (utf8Encode (urlencode params)))

/-! ## bot/orders.py -/

/-- The error surface of `OrderManager.place_order`: a
`ValidationError` (raised by the validators and, in the source, also
for the tradability rejections), or an exception propagated from the
client's order-placement call. -/
inductive BotError where
  | validation (msg : String)
  | connector (msg : String)
deriving DecidableEq, Repr

/-- A connector method invocation, recorded in order. -/
inductive ConnCall where
  | getSymbolInfo (symbol : PyStr)
  | placeMarketOrder (symbol side : PyStr) (quantity : PyFloat)
  | placeLimitOrder (symbol side : PyStr) (quantity : PyFloat)
      (price : Option PyFloat)
deriving DecidableEq, Repr

/-- The client as `OrderManager` observes it: what each connector
method would yield for this order.  `symbolInfo` is the result of
`get_symbol_info` (already `None` on any transport/parse error, per
bot/client.py); the two placement responses are `.error` when the
underlying call raises. -/
structure ClientModel where
  symbolInfo : PyStr → Option PyDict
  marketResp : PyStr → PyStr → PyFloat → Except String PyDict
  limitResp : PyStr → PyStr → PyFloat → Option PyFloat → Except String PyDict

/-- `OrderManager.place_order` (bot/orders.py): validate all
parameters (a `ValidationError` propagates), fetch symbol info and
reject falsy (`None` or empty) results and non-`TRADING` statuses with
`ValidationError`, then dispatch on the validated type and return the
client's raw response unchanged.  The second component records every
connector method invoked, in order. -/
def place_order (client : ClientModel)
    (symbol side order_type quantity : PyStr) (price : Option PyStr) :
    Except BotError PyDict × List ConnCall :=
  match validate_order_params symbol side order_type quantity price with
  | .error e => (.error (.validation e), [])
  | .ok params =>
    let calls := [ConnCall.getSymbolInfo params.symbol]
    let notFound : Except BotError PyDict × List ConnCall :=
      (.error (.validation ("Symbol " ++ String.mk params.symbol ++
        " not found or not tradable")), calls)
    match client.symbolInfo params.symbol with
    | none => notFound
    | some symbol_info =>
      if symbol_info.isEmpty then notFound
      else if dictGet symbol_info "status".data ≠ some "TRADING".data then
        (.error (.validation ("Symbol " ++ String.mk params.symbol ++
          " is not currently trading")), calls)
      else if params.type = "MARKET".data then
        let calls2 := calls ++
          [ConnCall.placeMarketOrder params.symbol params.side params.quantity]
        match client.marketResp params.symbol params.side params.quantity with
        | .ok resp => (.ok resp, calls2)
        | .error e => (.error (.connector e), calls2)
      else
        let calls2 := calls ++ [ConnCall.placeLimitOrder params.symbol
          params.side params.quantity params.price]
        match client.limitResp params.symbol params.side params.quantity
            params.price with
        | .ok resp => (.ok resp, calls2)
        | .error e => (.error (.connector e), calls2)

/-- A client whose exchange reports every symbol with status `BREAK`. -/
def breakClient : ClientModel where
  symbolInfo := fun _ => some [("status".data, "BREAK".data)]
  marketResp := fun _ _ _ => .ok [("orderId".data, "1".data)]
  limitResp := fun _ _ _ _ => .ok [("orderId".data, "1".data)]

/-- A client whose exchange reports every symbol as `TRADING` and
answers every placement with the fixed raw response `resp`. -/
def tradingClient (resp : PyDict) : ClientModel where
  symbolInfo := fun _ => some [("status".data, "TRADING".data)]
  marketResp := fun _ _ _ => .ok resp
  limitResp := fun _ _ _ _ => .ok resp

/-- `OrderManager._log_order_response` (bot/orders.py): the field
values logged for a raw order response, in log order.  Every absent
field is rendered with the sentinel `N/A`; `avgPrice` is logged only
when present and not in `['0', 0, '', None]` (the `0` and `None`
alternatives are not representable in a string-valued dict). -/
def log_order_response (resp : PyDict) : List PyStr :=
  [dictGetD resp "orderId".data "N/A".data,
   dictGetD resp "clientOrderId".data "N/A".data,
   dictGetD resp "symbol".data "N/A".data,
   dictGetD resp "status".data "N/A".data,
   dictGetD resp "type".data "N/A".data,
   dictGetD resp "side".data "N/A".data,
   dictGetD resp "price".data "N/A".data,
   dictGetD resp "origQty".data "N/A".data,
   dictGetD resp "executedQty".data "N/A".data] ++
  (match dictGet resp "avgPrice".data with
   | some v => if v = "0".data ∨ v = [] then [] else [v]
   | none => []) ++
  [dictGetD resp "timeInForce".data "N/A".data,
   dictGetD resp "updateTime".data "N/A".data]

end Bot

namespace Bot

example : validate_quantity "0.01".data = .ok (.finite (Rat.divInt 1 100)) := by
  decide

example : pyParseFloat "nan".data = some .nan := by decide

example : pyParseFloat "2500.5".data = some (.finite (Rat.divInt 5001 2)) := by
  decide

example : pyParseFloat "1_0e1".data = some (.finite 100) := by decide

example : pyParseFloat "abc".data = none := by decide

example : pyParseFloat "1_".data = none := by decide

example : pyParseFloat " -inf ".data = some .negInf := by decide

example :
    hexDigest (sha256 (utf8Encode "abc".data)) =
    "ba7816bf8f01cfea414140de5dae2223b00361a396177a9cb410ff61f20015ad".data := by
  decide

example :
    hexDigest (sha256 (utf8Encode [])) =
    "e3b0c44298fc1c149afbf4c8996fb92427ae41e4649b934ca495991b7852b855".data := by
  decide

example :
    hexDigest (hmacSha256 (utf8Encode "key".data)
      (utf8Encode "The quick brown fox jumps over the lazy dog".data)) =
    "f7bc83f430538424b13298e6aa6fb143ef4d59a14946175997479dbc2d1a3cd8".data := by
  decide

example : pyParseFloat "1.".data = some (.finite 1) := by decide

example : pyParseFloat ".5e1".data = some (.finite 5) := by decide

example : pyParseFloat ".".data = none := by decide

example : pyParseFloat "1e".data = none := by decide

example :
    validate_order_params "btcusdt".data "buy".data "market".data
      "0.01".data none =
    .ok ⟨"BTCUSDT".data, "BUY".data, "MARKET".data,
      .finite (Rat.divInt 1 100), none⟩ := by
  decide

end Bot

/-! ## Claims -/

namespace Bot

/-- `Except.ok` bound to a continuation reduces to the continuation. -/
theorem except_bind_ok {ε α β : Type} (a : α) (f : α → Except ε β) :
    (Except.ok a >>= f) = f a := rfl

/-- `Except.error` short-circuits a bind. -/
theorem except_bind_error {ε α β : Type} (e : ε) (f : α → Except ε β) :
    ((Except.error e : Except ε α) >>= f) = Except.error e := rfl

/-- C9: `validate("btcusdt","buy","market","0.01", None)` succeeds and
returns `{symbol: "BTCUSDT", side: BUY, type: MARKET, quantity: 0.01}`
with no price field, and `validate("ETHUSDT","SELL","LIMIT","0.01",
"2500.5")` succeeds with price `2500.5`. -/
theorem C9_validate_scenarios :
    validate_order_params "btcusdt".data "buy".data "market".data
      "0.01".data none =
      .ok ⟨"BTCUSDT".data, "BUY".data, "MARKET".data,
        .finite (Rat.divInt 1 100), none⟩ ∧
    validate_order_params "ETHUSDT".data "SELL".data "LIMIT".data
      "0.01".data (some "2500.5".data) =
      .ok ⟨"ETHUSDT".data, "SELL".data, "LIMIT".data,
        .finite (Rat.divInt 1 100), some (.finite (Rat.divInt 5001 2))⟩ :=
  ⟨by decide, by decide⟩

/-- C1 counterexample: for a MARKET order whose price string is
non-empty but does not parse as a number, the failure actually
reported is the cross-field "price not allowed" failure of rule 6, not
the price-parse failure of rule 5 that the claim requires. -/
theorem C1_market_unparseable_price_counterexample :
    validate_order_params "BTCUSDT".data "BUY".data "MARKET".data
      "0.01".data (some "abc".data) =
      .error "Price should not be specified for MARKET orders" ∧
    validate_order_params "BTCUSDT".data "BUY".data "MARKET".data
      "0.01".data (some "abc".data) ≠
      .error "Price must be a valid number" :=
  ⟨by decide, by decide⟩

/-- C1 (amended): validation applies the symbol, side, type and
quantity rules in that order and reports the failure of the first rule
violated; the price-parse rule runs only inside the LIMIT branch after
the presence requirement, so for a MARKET order any non-empty price —
whether or not it parses as a number — reports the cross-field "price
not allowed" failure, and for a LIMIT order an absent/empty price
reports "price required" while a provided price is then parsed and
range-checked. -/
theorem C1_validation_rule_order
    (symbol side order_type quantity : PyStr) (price : Option PyStr) :
    (∀ e, validate_symbol symbol = .error e →
      validate_order_params symbol side order_type quantity price =
        .error e) ∧
    (∀ s e, validate_symbol symbol = .ok s →
      validate_side side = .error e →
      validate_order_params symbol side order_type quantity price =
        .error e) ∧
    (∀ s sd e, validate_symbol symbol = .ok s →
      validate_side side = .ok sd →
      validate_order_type order_type = .error e →
      validate_order_params symbol side order_type quantity price =
        .error e) ∧
    (∀ s sd t e, validate_symbol symbol = .ok s →
      validate_side side = .ok sd →
      validate_order_type order_type = .ok t →
      validate_quantity quantity = .error e →
      validate_order_params symbol side order_type quantity price =
        .error e) ∧
    (∀ s sd t q, validate_symbol symbol = .ok s →
      validate_side side = .ok sd →
      validate_order_type order_type = .ok t →
      validate_quantity quantity = .ok q →
      t ≠ "LIMIT".data → price ≠ none → price ≠ some [] →
      validate_order_params symbol side order_type quantity price =
        .error "Price should not be specified for MARKET orders") ∧
    (∀ s sd t q, validate_symbol symbol = .ok s →
      validate_side side = .ok sd →
      validate_order_type order_type = .ok t →
      validate_quantity quantity = .ok q →
      t = "LIMIT".data → (price = none ∨ price = some []) →
      validate_order_params symbol side order_type quantity price =
        .error "Price is required for LIMIT orders") ∧
    (∀ s sd t q e, validate_symbol symbol = .ok s →
      validate_side side = .ok sd →
      validate_order_type order_type = .ok t →
      validate_quantity quantity = .ok q →
      t = "LIMIT".data → price ≠ none → price ≠ some [] →
      validate_price price = .error e →
      validate_order_params symbol side order_type quantity price =
        .error e) := by
  refine ⟨?_, ?_, ?_, ?_, ?_, ?_, ?_⟩
  · intro e h1
    simp only [validate_order_params, h1, except_bind_error]
  · intro s e h1 h2
    simp only [validate_order_params, h1, h2, except_bind_ok,
      except_bind_error]
  · intro s sd e h1 h2 h3
    simp only [validate_order_params, h1, h2, h3, except_bind_ok,
      except_bind_error]
  · intro s sd t e h1 h2 h3 h4
    simp only [validate_order_params, h1, h2, h3, h4, except_bind_ok,
      except_bind_error]
  · intro s sd t q h1 h2 h3 h4 ht hp1 hp2
    simp only [validate_order_params, h1, h2, h3, h4, except_bind_ok]
    rw [if_neg ht, if_pos ⟨hp1, hp2⟩]
    rfl
  · intro s sd t q h1 h2 h3 h4 ht hp
    simp only [validate_order_params, h1, h2, h3, h4, ht, except_bind_ok]
    rw [if_pos True.intro, if_pos hp]
    rfl
  · intro s sd t q e h1 h2 h3 h4 ht hp1 hp2 hp
    simp only [validate_order_params, h1, h2, h3, h4, ht, except_bind_ok]
    rw [if_pos True.intro, if_neg (fun h => h.elim hp1 hp2), hp]
    rfl

/-- Witness for `C1_validation_rule_order`: each branch exercised on a
concrete input. -/
theorem C1_validation_rule_order_witness :
    validate_order_params [] "x".data "x".data "x".data none =
      .error "Symbol cannot be empty" ∧
    validate_order_params "BTCUSDT".data "x".data "x".data "x".data none =
      .error "Side must be 'BUY' or 'SELL'" ∧
    validate_order_params "BTCUSDT".data "BUY".data "x".data "x".data none =
      .error "Order type must be 'MARKET' or 'LIMIT'" ∧
    validate_order_params "BTCUSDT".data "BUY".data "MARKET".data "x".data
      none = .error "Quantity must be a valid number" ∧
    validate_order_params "BTCUSDT".data "BUY".data "MARKET".data "1".data
      (some "abc".data) =
      .error "Price should not be specified for MARKET orders" ∧
    validate_order_params "BTCUSDT".data "BUY".data "LIMIT".data "1".data
      none = .error "Price is required for LIMIT orders" ∧
    validate_order_params "BTCUSDT".data "BUY".data "LIMIT".data "1".data
      (some "abc".data) = .error "Price must be a valid number" := by
  refine ⟨?_, ?_, ?_, ?_, ?_, ?_, ?_⟩
  · exact (C1_validation_rule_order [] "x".data "x".data "x".data none).1
      "Symbol cannot be empty" (by decide)
  · exact (C1_validation_rule_order "BTCUSDT".data "x".data "x".data
      "x".data none).2.1 "BTCUSDT".data "Side must be 'BUY' or 'SELL'"
      (by decide) (by decide)
  · exact (C1_validation_rule_order "BTCUSDT".data "BUY".data "x".data
      "x".data none).2.2.1 "BTCUSDT".data "BUY".data
      "Order type must be 'MARKET' or 'LIMIT'" (by decide) (by decide)
      (by decide)
  · exact (C1_validation_rule_order "BTCUSDT".data "BUY".data
      "MARKET".data "x".data none).2.2.2.1 "BTCUSDT".data "BUY".data
      "MARKET".data "Quantity must be a valid number"
      (by decide) (by decide) (by decide) (by decide)
  · exact (C1_validation_rule_order "BTCUSDT".data "BUY".data
      "MARKET".data "1".data (some "abc".data)).2.2.2.2.1 "BTCUSDT".data
      "BUY".data "MARKET".data (.finite (Rat.divInt 1 1))
      (by decide) (by decide) (by decide) (by decide) (by decide)
      (by decide) (by decide)
  · exact (C1_validation_rule_order "BTCUSDT".data "BUY".data
      "LIMIT".data "1".data none).2.2.2.2.2.1 "BTCUSDT".data "BUY".data
      "LIMIT".data (.finite (Rat.divInt 1 1))
      (by decide) (by decide) (by decide) (by decide) (by decide)
      (Or.inl rfl)
  · exact (C1_validation_rule_order "BTCUSDT".data "BUY".data
      "LIMIT".data "1".data (some "abc".data)).2.2.2.2.2.2 "BTCUSDT".data
      "BUY".data "LIMIT".data (.finite (Rat.divInt 1 1))
      "Price must be a valid number"
      (by decide) (by decide) (by decide) (by decide) (by decide)
      (by decide) (by decide) (by decide)


/-- C4 counterexample: the quantity strings `"nan"` and `"inf"` parse
to non-finite values, yet quantity validation accepts both instead of
rejecting them with a `ValidationFailure` as the claim requires
(`float("nan") <= 0` and `float("inf") <= 0` are both false in
Python). -/
theorem C4_nonfinite_quantity_counterexample :
    validate_quantity "nan".data = .ok .nan ∧
    validate_quantity "inf".data = .ok .inf ∧
    PyFloat.isFinite .nan = false ∧
    PyFloat.isFinite .inf = false :=
  ⟨by decide, by decide, rfl, rfl⟩

/-- C4 (amended): quantity validation succeeds exactly on the strings
that parse as a Python float whose value does not compare `<= 0`
(IEEE comparison, under which NaN compares false): a string that does
not parse is rejected with the parse failure, a parsed value with
`v <= 0` (zero, negatives, `-inf`) is rejected with the positivity
failure, and `+inf` and NaN are accepted. -/
theorem C4_validate_quantity_characterisation (q : PyStr) :
    (∀ v, validate_quantity q = .ok v ↔
      pyParseFloat q = some v ∧ v.leZero = false) ∧
    (pyParseFloat q = none →
      validate_quantity q = .error "Quantity must be a valid number") ∧
    (∀ v, pyParseFloat q = some v → v.leZero = true →
      validate_quantity q = .error "Quantity must be greater than 0") := by
  refine ⟨?_, ?_, ?_⟩
  · intro v
    constructor
    · intro h
      cases hp : pyParseFloat q with
      | none => simp [validate_quantity, hp] at h
      | some u =>
        simp only [validate_quantity, hp] at h
        by_cases hz : u.leZero = true
        · rw [if_pos hz] at h
          exact absurd h (by simp)
        · rw [if_neg hz] at h
          cases h
          exact ⟨rfl, by simpa using hz⟩
    · rintro ⟨hp, hz⟩
      simp [validate_quantity, hp, hz]
  · intro hp
    simp [validate_quantity, hp]
  · intro v hp hz
    simp [validate_quantity, hp, hz]

/-- Witness for `C4_validate_quantity_characterisation`: the three
branches at concrete quantity strings. -/
theorem C4_validate_quantity_witness :
    validate_quantity "0.01".data = .ok (.finite (Rat.divInt 1 100)) ∧
    validate_quantity "abc".data =
      .error "Quantity must be a valid number" ∧
    validate_quantity "-1".data =
      .error "Quantity must be greater than 0" :=
  ⟨((C4_validate_quantity_characterisation "0.01".data).1
      (.finite (Rat.divInt 1 100))).mpr ⟨by decide, by decide⟩,
   (C4_validate_quantity_characterisation "abc".data).2.1 (by decide),
   (C4_validate_quantity_characterisation "-1".data).2.2
     (.finite (Rat.divInt (-1) 1)) (by decide) (by decide)⟩

/-- Inversion for `validate_price` on a provided, non-empty price: a
success always carries some value `u` with `u <= 0` false. -/
theorem validate_price_ok_inv {p : PyStr} {vp : Option PyFloat}
    (hne : p ≠ []) (h : validate_price (some p) = .ok vp) :
    ∃ u, vp = some u ∧ u.leZero = false := by
  have hie : p.isEmpty = false := by
    cases p with
    | nil => exact absurd rfl hne
    | cons c r => rfl
  simp only [validate_price, hie, Bool.false_eq_true, if_false] at h
  cases hp : pyParseFloat p with
  | none => simp [hp] at h
  | some u =>
    simp only [hp] at h
    by_cases hz : u.leZero = true
    · rw [if_pos hz] at h
      exact absurd h (by simp)
    · rw [if_neg hz] at h
      cases h
      exact ⟨u, rfl, by simpa using hz⟩

/-- C7 counterexample: a successful LIMIT validation does not always
carry a strictly positive price — the price string `"nan"` passes the
`p <= 0` check (NaN compares false), so validation succeeds with a
NaN price, which is not strictly positive. -/
theorem C7_limit_nan_price_counterexample :
    validate_order_params "BTCUSDT".data "SELL".data "LIMIT".data
      "1".data (some "nan".data) =
      .ok ⟨"BTCUSDT".data, "SELL".data, "LIMIT".data,
        .finite (Rat.divInt 1 1), some .nan⟩ ∧
    PyFloat.posCmp .nan = false :=
  ⟨by decide, rfl⟩

/-- C7 (amended): a validated record carries a price field iff the
validated type is LIMIT; a carried price never compares `<= 0` (so it
is strictly positive or, through the NaN comparison slip, NaN), and a
successful MARKET validation never carries a price. -/
theorem C7_price_present_iff_limit
    (symbol side order_type quantity : PyStr) (price : Option PyStr)
    (v : ValidatedParams)
    (h : validate_order_params symbol side order_type quantity price =
      .ok v) :
    (v.price ≠ none ↔ v.type = "LIMIT".data) ∧
    (∀ p, v.price = some p → p.leZero = false) := by
  unfold validate_order_params at h
  cases hs : validate_symbol symbol with
  | error e => rw [hs] at h; exact absurd h (by simp [except_bind_error])
  | ok s =>
  rw [hs] at h
  simp only [except_bind_ok] at h
  cases hsd : validate_side side with
  | error e => rw [hsd] at h; exact absurd h (by simp [except_bind_error])
  | ok sd =>
  rw [hsd] at h
  simp only [except_bind_ok] at h
  cases hty : validate_order_type order_type with
  | error e => rw [hty] at h; exact absurd h (by simp [except_bind_error])
  | ok t =>
  rw [hty] at h
  simp only [except_bind_ok] at h
  cases hq : validate_quantity quantity with
  | error e => rw [hq] at h; exact absurd h (by simp [except_bind_error])
  | ok q =>
  rw [hq] at h
  simp only [except_bind_ok] at h
  by_cases ht : t = "LIMIT".data
  · rw [if_pos ht] at h
    by_cases hpe : price = none ∨ price = some []
    · rw [if_pos hpe] at h
      exact absurd h (by simp [throw, throwThe, MonadExceptOf.throw])
    · rw [if_neg hpe] at h
      push_neg at hpe
      obtain ⟨p, hp⟩ : ∃ p, price = some p := by
        cases price with
        | none => exact absurd rfl hpe.1
        | some p => exact ⟨p, rfl⟩
      have hpne : p ≠ [] := by
        intro hnil
        exact hpe.2 (by rw [hp, hnil])
      cases hv : validate_price price with
      | error e => rw [hv] at h; exact absurd h (by simp [except_bind_error])
      | ok vp =>
        rw [hv] at h
        simp only [except_bind_ok] at h
        cases h
        obtain ⟨u, hu, huz⟩ := validate_price_ok_inv hpne (hp ▸ hv)
        subst hu
        refine ⟨by simp [ht], ?_⟩
        intro p' hp'
        cases hp'
        exact huz
  · rw [if_neg ht] at h
    by_cases hpe : price ≠ none ∧ price ≠ some []
    · rw [if_pos hpe] at h
      exact absurd h (by simp [throw, throwThe, MonadExceptOf.throw])
    · rw [if_neg hpe] at h
      cases h
      refine ⟨by simp [ht], ?_⟩
      intro p' hp'
      exact absurd hp' (by simp)

/-- Witness for `C7_price_present_iff_limit`: the LIMIT scenario of
C9, where the carried price is `2500.5`. -/
theorem C7_price_present_iff_limit_witness :
    ((some (PyFloat.finite (Rat.divInt 5001 2)) ≠ (none : Option PyFloat)) ↔
      "LIMIT".data = "LIMIT".data) ∧
    PyFloat.leZero (.finite (Rat.divInt 5001 2)) = false := by
  have h := C7_price_present_iff_limit "ETHUSDT".data "SELL".data
    "LIMIT".data "0.01".data (some "2500.5".data)
    ⟨"ETHUSDT".data, "SELL".data, "LIMIT".data,
      .finite (Rat.divInt 1 100), some (.finite (Rat.divInt 5001 2))⟩
    (by decide)
  exact ⟨h.1, h.2 (.finite (Rat.divInt 5001 2)) rfl⟩


/-- C5: when parameter validation fails, `place_order` reports exactly
that validation failure and the connector call log is empty: neither
`get_symbol_info` nor either order-placement method is invoked. -/
theorem C5_validation_fails_before_network (client : ClientModel)
    (symbol side order_type quantity : PyStr) (price : Option PyStr)
    (e : String)
    (h : validate_order_params symbol side order_type quantity price =
      .error e) :
    place_order client symbol side order_type quantity price =
      (.error (.validation e), []) := by
  simp only [place_order, h]

/-- Witness for `C5_validation_fails_before_network`: a non-positive
quantity aborts with no connector call. -/
theorem C5_validation_fails_before_network_witness :
    place_order breakClient "BTCUSDT".data "BUY".data "MARKET".data
      "-1".data none =
      (.error (.validation "Quantity must be greater than 0"), []) :=
  C5_validation_fails_before_network breakClient "BTCUSDT".data
    "BUY".data "MARKET".data "-1".data none
    "Quantity must be greater than 0" (by decide)

/-- C2 counterexample: for a symbol whose fetched info has status
`BREAK`, `place_order` does abort before any POST (the call log stops
at `getSymbolInfo`), but the failure raised is a plain
`ValidationError` — the very same `BotError.validation` kind produced
by local input validation failures (second conjunct) — not a distinct
`TradabilityFailure` kind as the claim requires. -/
theorem C2_break_validationerror_counterexample :
    place_order breakClient "BTCUSDT".data "BUY".data "MARKET".data
      "0.01".data none =
      (.error (.validation "Symbol BTCUSDT is not currently trading"),
       [.getSymbolInfo "BTCUSDT".data]) ∧
    place_order breakClient "BTCUSDT".data "BUY".data "MARKET".data
      "-1".data none =
      (.error (.validation "Quantity must be greater than 0"), []) :=
  ⟨by decide, by decide⟩

/-- C2 (amended): when the fetched symbol info is absent (or falsy) or
carries a status other than `TRADING`, `place_order` aborts by raising
a `ValidationError` (the source reuses `ValidationError` for
tradability rejections instead of a distinct kind), and no
order-placement POST is invoked: the connector call log is exactly the
single `getSymbolInfo` call. -/
theorem C2_untradable_aborts_before_post (client : ClientModel)
    (symbol side order_type quantity : PyStr) (price : Option PyStr)
    (params : ValidatedParams)
    (h : validate_order_params symbol side order_type quantity price =
      .ok params)
    (habs : client.symbolInfo params.symbol = none ∨
      ∃ si, client.symbolInfo params.symbol = some si ∧
        (si.isEmpty = true ∨
          dictGet si "status".data ≠ some "TRADING".data)) :
    (place_order client symbol side order_type quantity price).2 =
      [ConnCall.getSymbolInfo params.symbol] ∧
    ∃ msg, (place_order client symbol side order_type quantity price).1 =
      .error (.validation msg) := by
  rcases habs with hn | ⟨si, hsi, hcase⟩
  · simp only [place_order, h, hn]
    exact ⟨trivial, _, rfl⟩
  · simp only [place_order, h, hsi]
    by_cases he : si.isEmpty = true
    · rw [if_pos he]
      exact ⟨rfl, _, rfl⟩
    · rw [if_neg he]
      rcases hcase with he2 | hst
      · exact absurd he2 he
      · rw [if_pos hst]
        exact ⟨rfl, _, rfl⟩

/-- Witness for `C2_untradable_aborts_before_post`: the `BREAK`
scenario of the spec. -/
theorem C2_untradable_aborts_before_post_witness :
    (place_order breakClient "BTCUSDT".data "BUY".data "MARKET".data
      "0.01".data none).2 = [ConnCall.getSymbolInfo "BTCUSDT".data] ∧
    ∃ msg, (place_order breakClient "BTCUSDT".data "BUY".data
      "MARKET".data "0.01".data none).1 = .error (.validation msg) :=
  C2_untradable_aborts_before_post breakClient "BTCUSDT".data "BUY".data
    "MARKET".data "0.01".data none
    ⟨"BTCUSDT".data, "BUY".data, "MARKET".data,
      .finite (Rat.divInt 1 100), none⟩
    (by decide)
    (Or.inr ⟨[("status".data, "BREAK".data)], rfl, Or.inr (by decide)⟩)

/-- C6 counterexample: the value returned by `place_order` is not a
normalised record with sentinel defaults — for an upstream response
containing only `orderId`, the returned value is that same raw dict,
still lacking `status` (and every other field) rather than carrying a
sentinel for it. -/
theorem C6_no_normalisation_counterexample :
    (place_order (tradingClient [("orderId".data, "1".data)])
      "BTCUSDT".data "BUY".data "MARKET".data "0.01".data none).1 =
      .ok [("orderId".data, "1".data)] ∧
    dictGet [(("orderId".data : PyStr), ("1".data : PyStr))]
      "status".data = none :=
  ⟨by decide, by decide⟩

/-- C6 (amended): on a successful dispatch `place_order` returns the
exchange's raw response exactly as the client produced it — no
normalisation and no sentinel defaulting is applied to the returned
value; the `N/A` sentinel appears only in the logged rendering, where
`_log_order_response` substitutes it for each absent field. -/
theorem C6_returns_raw_response (client : ClientModel)
    (symbol side order_type quantity : PyStr) (price : Option PyStr)
    (params : ValidatedParams) (resp : PyDict)
    (h : validate_order_params symbol side order_type quantity price =
      .ok params)
    (hsi : ∃ si, client.symbolInfo params.symbol = some si ∧
      si.isEmpty = false ∧
      dictGet si "status".data = some "TRADING".data)
    (hm : client.marketResp params.symbol params.side params.quantity =
      .ok resp)
    (hl : client.limitResp params.symbol params.side params.quantity
      params.price = .ok resp) :
    (place_order client symbol side order_type quantity price).1 =
      .ok resp ∧
    (∀ k, dictGet resp k = none →
      dictGetD resp k "N/A".data = "N/A".data) := by
  obtain ⟨si, hsi, hne, hst⟩ := hsi
  have hgetd : ∀ k, dictGet resp k = none →
      dictGetD resp k "N/A".data = "N/A".data := by
    intro k hk
    unfold dictGetD
    rw [hk]
    rfl
  refine ⟨?_, hgetd⟩
  simp only [place_order, h, hsi]
  rw [if_neg (by rw [hne]; exact Bool.false_ne_true)]
  rw [if_neg (by rw [hst]; exact fun hc => hc rfl)]
  by_cases ht : params.type = "MARKET".data
  · rw [if_pos ht, hm]
  · rw [if_neg ht, hl]

/-- Witness for `C6_returns_raw_response`: a market order against a
client answering with a one-field raw response. -/
theorem C6_returns_raw_response_witness :
    (place_order (tradingClient [("orderId".data, "1".data)])
      "BTCUSDT".data "BUY".data "MARKET".data "0.01".data none).1 =
      .ok [("orderId".data, "1".data)] ∧
    dictGetD [(("orderId".data : PyStr), ("1".data : PyStr))]
      "status".data "N/A".data = "N/A".data := by
  have h := C6_returns_raw_response
    (tradingClient [("orderId".data, "1".data)]) "BTCUSDT".data
    "BUY".data "MARKET".data "0.01".data none
    ⟨"BTCUSDT".data, "BUY".data, "MARKET".data,
      .finite (Rat.divInt 1 100), none⟩
    [("orderId".data, "1".data)] (by decide)
    ⟨[("status".data, "TRADING".data)], rfl, rfl, by decide⟩ rfl rfl
  exact ⟨h.1, h.2 "status".data (by decide)⟩

/-- C8: `test_connection` returns a boolean and never propagates an
exception (every raised exception is an `.error` outcome, mapped to
`false`): it returns `true` exactly when the account-endpoint GET
yields HTTP status 200, and `false` for every other status code and
every transport error. -/
theorem C8_test_connection_boolean (outcome : Except String HttpResponse) :
    test_connection outcome = true ↔
      ∃ r, outcome = .ok r ∧ r.status_code = 200 := by
  cases outcome with
  | error e => simp [test_connection]
  | ok r => simp [test_connection]

/-- C3: `_generate_signature` is exactly the spec's algorithm — the
lower-case hex digest of HMAC-SHA-256 keyed by the UTF-8 bytes of the
secret over the UTF-8 bytes of the URL-encoded query string of the
parameters in insertion order; it is deterministic, and the two
insertion orders of `{a:1, b:2}` produce different signatures (shown
at a concrete secret). -/
theorem C3_signature_algorithm (secret : PyStr)
    (params : List (PyStr × PyStr)) :
    generate_signature secret params = signSpec secret params ∧
    generate_signature secret params = generate_signature secret params ∧
    generate_signature "testsecret".data
        [("a".data, "1".data), ("b".data, "2".data)] ≠
      generate_signature "testsecret".data
        [("b".data, "2".data), ("a".data, "1".data)] :=
  ⟨rfl, rfl, by decide⟩


/-! ### Idempotence of the normalising validators (C10) -/

/-- `Char.ofNat` at a valid code point evaluates back to it. -/
theorem toNat_ofNat_valid {n : Nat} (h : n.isValidChar) :
    (Char.ofNat n).toNat = n := by
  unfold Char.ofNat
  rw [dif_pos h]
  rfl

/-- `Char.toUpper` is idempotent. -/
theorem toUpper_toUpper (c : Char) : c.toUpper.toUpper = c.toUpper := by
  unfold Char.toUpper
  by_cases h : 97 ≤ c.toNat ∧ c.toNat ≤ 122
  · rw [if_pos h]
    have ht : (Char.ofNat (c.toNat - 32)).toNat = c.toNat - 32 :=
      toNat_ofNat_valid (Or.inl (by omega))
    rw [ht, if_neg (by omega)]
  · rw [if_neg h, if_neg h]

/-- Whitespace characters have code points at most 32. -/
theorem toNat_le_of_isPySpace {x : Char} (h : isPySpace x = true) :
    x.toNat ≤ 32 := by
  simp only [isPySpace, Bool.or_eq_true, beq_iff_eq, Bool.and_eq_true,
    decide_eq_true_eq] at h
  omega

/-- A character with code point at least 33 is not whitespace. -/
theorem isPySpace_false_of_33 {x : Char} (h : 33 ≤ x.toNat) :
    isPySpace x = false := by
  by_cases hsp : isPySpace x = true
  · have := toNat_le_of_isPySpace hsp
    omega
  · simpa using hsp

/-- Upper-casing does not change whether a character is whitespace. -/
theorem isPySpace_toUpper (c : Char) :
    isPySpace c.toUpper = isPySpace c := by
  unfold Char.toUpper
  by_cases h : 97 ≤ c.toNat ∧ c.toNat ≤ 122
  · rw [if_pos h]
    have hv : (Char.ofNat (c.toNat - 32)).toNat = c.toNat - 32 :=
      toNat_ofNat_valid (Or.inl (by omega))
    rw [isPySpace_false_of_33 (by rw [hv]; omega),
      isPySpace_false_of_33 (by omega)]
  · rw [if_neg h]

/-- `dropWhile` is idempotent. -/
theorem dropWhile_idem (p : Char → Bool) (l : List Char) :
    (l.dropWhile p).dropWhile p = l.dropWhile p := by
  induction l with
  | nil => rfl
  | cons a t ih =>
    rw [List.dropWhile_cons]
    by_cases ha : p a = true
    · rw [if_pos ha]
      exact ih
    · rw [if_neg ha, List.dropWhile_cons, if_neg ha]

/-- The head surviving `dropWhile` fails the predicate. -/
theorem dropWhile_head_false (p : Char → Bool) (l : List Char) {c : Char}
    {rest : List Char} (h : l.dropWhile p = c :: rest) : p c = false := by
  induction l with
  | nil => exact absurd h (by simp)
  | cons a t ih =>
    rw [List.dropWhile_cons] at h
    by_cases ha : p a = true
    · rw [if_pos ha] at h
      exact ih h
    · rw [if_neg ha] at h
      cases h
      simpa using ha

/-- A nonempty `dropWhile` result keeps the last element. -/
theorem dropWhile_getLast? (p : Char → Bool) (l : List Char)
    (h : l.dropWhile p ≠ []) :
    (l.dropWhile p).getLast? = l.getLast? := by
  induction l with
  | nil => exact absurd rfl h
  | cons a t ih =>
    rw [List.dropWhile_cons]
    by_cases ha : p a = true
    · rw [List.dropWhile_cons, if_pos ha] at h
      rw [if_pos ha, ih h]
      cases t with
      | nil => exact absurd rfl h
      | cons b t2 => exact (List.getLast?_cons_cons).symm
    · rw [if_neg ha]

/-- `dropWhile` commutes with `map f` when `f` preserves the
predicate. -/
theorem dropWhile_map_comm (f : Char → Char) (p : Char → Bool)
    (hf : ∀ c, p (f c) = p c) (l : List Char) :
    (l.map f).dropWhile p = (l.dropWhile p).map f := by
  induction l with
  | nil => rfl
  | cons a t ih =>
    rw [List.map_cons, List.dropWhile_cons, List.dropWhile_cons, hf a]
    by_cases ha : p a = true
    · rw [if_pos ha, if_pos ha, ih]
    · rw [if_neg ha, if_neg ha, List.map_cons]

/-- `pyStrip` commutes with a character map that preserves
whitespace. -/
theorem pyStrip_map_comm (f : Char → Char)
    (hf : ∀ c, isPySpace (f c) = isPySpace c) (l : PyStr) :
    pyStrip (l.map f) = (pyStrip l).map f := by
  unfold pyStrip
  rw [dropWhile_map_comm f isPySpace hf, ← List.map_reverse,
    dropWhile_map_comm f isPySpace hf, ← List.map_reverse]

/-- A stripped string does not start with whitespace, so stripping
its front again is the identity. -/
theorem pyStrip_dropWhile (m : List Char) :
    (((m.dropWhile isPySpace).reverse.dropWhile
      isPySpace).reverse).dropWhile isPySpace =
    ((m.dropWhile isPySpace).reverse.dropWhile isPySpace).reverse := by
  cases hc : ((m.dropWhile isPySpace).reverse.dropWhile
      isPySpace).reverse with
  | nil => rfl
  | cons c rest =>
    have h1 : (m.dropWhile isPySpace).reverse.dropWhile isPySpace ≠ [] := by
      intro h0
      rw [h0] at hc
      exact absurd hc (by simp)
    have h2 := dropWhile_getLast? isPySpace (m.dropWhile isPySpace).reverse h1
    rw [List.getLast?_reverse] at h2
    have h3 : ((m.dropWhile isPySpace).reverse.dropWhile
        isPySpace).getLast? = some c := by
      rw [← List.head?_reverse, hc]
      rfl
    rw [h3] at h2
    cases hzh : m.dropWhile isPySpace with
    | nil =>
      rw [hzh] at h2
      exact absurd h2.symm (by simp)
    | cons d t =>
      rw [hzh] at h2
      have hcd : c = d := by
        have : some c = some d := h2
        injection this
      have hd := dropWhile_head_false isPySpace m hzh
      rw [List.dropWhile_cons,
        if_neg (by rw [hcd, hd]; exact Bool.false_ne_true)]

/-- `pyStrip` is idempotent. -/
theorem pyStrip_idem (l : PyStr) : pyStrip (pyStrip l) = pyStrip l := by
  unfold pyStrip
  rw [pyStrip_dropWhile l, List.reverse_reverse, dropWhile_idem]

/-- `pyUpper` is idempotent. -/
theorem pyUpper_idem (l : PyStr) : pyUpper (pyUpper l) = pyUpper l := by
  unfold pyUpper
  rw [List.map_map]
  exact List.map_congr_left fun a _ => toUpper_toUpper a

/-- The upper-case-and-strip normalisation shared by the validators is
idempotent. -/
theorem normalize_fixpoint (s : PyStr) :
    pyStrip (pyUpper (pyStrip (pyUpper s))) = pyStrip (pyUpper s) := by
  have h1 : pyUpper (pyStrip (pyUpper s)) = pyStrip (pyUpper (pyUpper s)) := by
    show (pyStrip (pyUpper s)).map Char.toUpper =
      pyStrip ((pyUpper s).map Char.toUpper)
    exact (pyStrip_map_comm Char.toUpper isPySpace_toUpper (pyUpper s)).symm
  rw [h1, pyUpper_idem, pyStrip_idem]

/-- C10: the three normalising validators are idempotent — a value
that has passed `validate_symbol`, `validate_side` or
`validate_order_type` re-validates to itself. -/
theorem C10_validators_idempotent (s1 s2 s3 : PyStr) :
    (∀ t, validate_symbol s1 = .ok t → validate_symbol t = .ok t) ∧
    (∀ t, validate_side s2 = .ok t → validate_side t = .ok t) ∧
    (∀ t, validate_order_type s3 = .ok t → validate_order_type t = .ok t) := by
  refine ⟨?_, ?_, ?_⟩
  · intro t h
    simp only [validate_symbol] at h
    by_cases he : s1.isEmpty = true
    · rw [if_pos he] at h
      exact absurd h (by simp)
    · rw [if_neg he] at h
      by_cases hsuf : pyEndsWith (pyStrip (pyUpper s1)) "USDT".data = true
      · rw [if_neg (not_not_intro hsuf)] at h
        by_cases hlen : (pyStrip (pyUpper s1)).length < 5
        · rw [if_pos hlen] at h
          exact absurd h (by simp)
        · rw [if_neg hlen] at h
          cases h
          simp only [validate_symbol]
          have hne : (pyStrip (pyUpper s1)).isEmpty = false := by
            cases hq : pyStrip (pyUpper s1) with
            | nil =>
              rw [hq] at hsuf
              exact absurd hsuf (by decide)
            | cons a l2 => rfl
          rw [if_neg (by rw [hne]; exact Bool.false_ne_true)]
          rw [normalize_fixpoint s1]
          rw [if_neg (not_not_intro hsuf), if_neg hlen]
      · rw [if_pos hsuf] at h
        exact absurd h (by simp)
  · intro t h
    simp only [validate_side] at h
    by_cases hc : pyStrip (pyUpper s2) = "BUY".data ∨
        pyStrip (pyUpper s2) = "SELL".data
    · rw [if_neg (not_not_intro hc)] at h
      cases h
      rcases hc with hc | hc <;> rw [hc] <;> decide
    · rw [if_pos hc] at h
      exact absurd h (by simp)
  · intro t h
    simp only [validate_order_type] at h
    by_cases hc : pyStrip (pyUpper s3) = "MARKET".data ∨
        pyStrip (pyUpper s3) = "LIMIT".data
    · rw [if_neg (not_not_intro hc)] at h
      cases h
      rcases hc with hc | hc <;> rw [hc] <;> decide
    · rw [if_pos hc] at h
      exact absurd h (by simp)

/-- Witness for `C10_validators_idempotent`: the outputs of the C9
scenario inputs re-validate to themselves. -/
theorem C10_validators_idempotent_witness :
    validate_symbol "BTCUSDT".data = .ok "BTCUSDT".data ∧
    validate_side "BUY".data = .ok "BUY".data ∧
    validate_order_type "MARKET".data = .ok "MARKET".data :=
  ⟨(C10_validators_idempotent " btcusdt ".data "buy".data
      "market".data).1 "BTCUSDT".data (by decide),
   (C10_validators_idempotent " btcusdt ".data "buy".data
      "market".data).2.1 "BUY".data (by decide),
   (C10_validators_idempotent " btcusdt ".data "buy".data
      "market".data).2.2 "MARKET".data (by decide)⟩

end Bot
